import Mathlib

/-!
Shallow embedding of the request-metrics collector in `src/stats.go`
(package `stats`).

Modelling conventions:
* Go `time.Time` and `time.Duration` are both nanosecond counts, modelled
  as `Int` (`time.Time{}` is `0`).  Wall-clock reads (`time.Now()`) become
  explicit `now` parameters.
* Go `float64` values (the `URLHighestResponse` / `URLLowestResponse`
  maps, `ResponseSeconds`, the arguments of `SecondsToDate` and `Round`)
  are modelled as exact rationals `ℚ`; all values actually stored by the
  code are integral nanosecond counts or quotients of such, which float64
  represents exactly in the regimes the spec discusses.
* Go `map[string]V` is an association list with Go's read semantics:
  reading an absent key yields the zero value, writing creates the entry.
* `fmt.Sprintf("%d", status)` is `toString` on `Int`.
* The goroutine started by `New` only ever calls `ResetResponseCounts`;
  the reset operation itself is modelled, scheduling is not.
-/

/-- Go `map[string]α` as an association list (insertion order is the
iteration order; it is irrelevant to every property proved here). -/
abbrev SMap (α : Type) : Type := List (String × α)

namespace SMap

/-- Lookup: `some v` when the key is present (Go: `v, ok := m[k]`). -/
def get? (m : SMap α) (k : String) : Option α :=
  (m.find? (fun p => p.1 == k)).map Prod.snd

/-- Go map read `m[k]`: the zero value `d` when the key is absent. -/
def getD (m : SMap α) (k : String) (d : α) : α :=
  (m.get? k).getD d

/-- Go map write `m[k] = v`. -/
def set : SMap α → String → α → SMap α
  | [], k, v => [(k, v)]
  | (k', v') :: t, k, v =>
      if k' == k then (k', v) :: t else (k', v') :: set t k v

/-- Sum of all values (Go: `for _, c := range m { n += c }`). -/
def valuesSum (m : SMap Int) : Int :=
  (m.map Prod.snd).sum

end SMap

/-- `type TimeSpan struct` of `stats.go`. -/
structure TimeSpan where
  Weeks : Int
  Days : Int
  Hours : Int
  Minutes : Int
  Seconds : Int
deriving DecidableEq

/-- `type ResponseURL struct` of `stats.go`: the peak ("max response
time") record.  `ResponseDuration` is a `time.Duration` (ns),
`ResponseTime` a `time.Time` (ns), `ResponseSeconds` a `float64`,
and `ResponseSince` a `*TimeSpan` held here by value. -/
structure ResponseURL where
  ResponseURL : String
  RepsonseMethod : String
  ResponseDuration : Int
  ResponseTime : Int
  ResponseSeconds : ℚ
  ResponseSince : TimeSpan
deriving DecidableEq

/-- `type Stats struct` of `stats.go` (the mutex is a concurrency
artefact with no sequential content and is not modelled). -/
structure Stats where
  Uptime : Int
  Pid : Int
  ResponseCounts : SMap Int
  TotalResponseCounts : SMap Int
  URLRequestLatency : SMap Int
  URLRequestCounts : SMap Int
  TotalResponseTime : Int
  RequestTypeCounts : SMap Int
  UserAgentCounts : SMap Int
  URLHighestResponse : SMap ℚ
  URLLowestResponse : SMap ℚ
  MaxResponseTime : ResponseURL
deriving DecidableEq

/-- `New()` of `stats.go`; `os.Getpid()` and `time.Now()` become the
parameters `pid` and `now`. -/
def New (pid : Int) (now : Int) : Stats :=
  { Uptime := now
    Pid := pid
    ResponseCounts := []
    TotalResponseCounts := []
    URLRequestCounts := []
    URLRequestLatency := []
    TotalResponseTime := 0
    RequestTypeCounts := []
    UserAgentCounts := []
    URLHighestResponse := []
    URLLowestResponse := []
    MaxResponseTime :=
      { ResponseURL := ""
        RepsonseMethod := ""
        ResponseDuration := 0
        ResponseTime := 0
        ResponseSeconds := 0
        ResponseSince := ⟨0, 0, 0, 0, 0⟩ } }

/-- `ResetResponseCounts()` of `stats.go`: the rolling-window map is
replaced by a fresh empty map. -/
def ResetResponseCounts (mw : Stats) : Stats :=
  { mw with ResponseCounts := [] }

/-- `EndWithStatus(start, status, url, method, useragent)` of
`stats.go`.  `end := time.Now()` is the parameter `now` (the second
`time.Now()` inside the peak update is the same instant up to the
clock reading, merged here); `responseTime := end.Sub(start)`. -/
def EndWithStatus (mw : Stats) (start : Int) (status : Int)
    (url : String) (method : String) (useragent : String) (now : Int) : Stats :=
  let responseTime : Int := now - start
  let statusCode : String := toString status
  let maxRT :=
    if mw.MaxResponseTime.ResponseDuration < responseTime then
      { mw.MaxResponseTime with
          ResponseDuration := responseTime
          ResponseURL := url
          ResponseTime := now
          RepsonseMethod := method }
    else mw.MaxResponseTime
  let hi :=
    if mw.URLHighestResponse.getD url 0 < (responseTime : ℚ) then
      mw.URLHighestResponse.set url (responseTime : ℚ)
    else mw.URLHighestResponse
  let lo0 :=
    if mw.URLLowestResponse.getD url 0 = (0 : ℚ) then
      mw.URLLowestResponse.set url (responseTime : ℚ)
    else mw.URLLowestResponse
  let lo :=
    if (responseTime : ℚ) < lo0.getD url 0 then
      lo0.set url (responseTime : ℚ)
    else lo0
  { mw with
      ResponseCounts :=
        mw.ResponseCounts.set statusCode (mw.ResponseCounts.getD statusCode 0 + 1)
      TotalResponseCounts :=
        mw.TotalResponseCounts.set statusCode (mw.TotalResponseCounts.getD statusCode 0 + 1)
      TotalResponseTime := mw.TotalResponseTime + responseTime
      URLRequestCounts :=
        mw.URLRequestCounts.set url (mw.URLRequestCounts.getD url 0 + 1)
      URLRequestLatency :=
        mw.URLRequestLatency.set url (mw.URLRequestLatency.getD url 0 + responseTime)
      RequestTypeCounts :=
        mw.RequestTypeCounts.set method (mw.RequestTypeCounts.getD method 0 + 1)
      UserAgentCounts :=
        mw.UserAgentCounts.set useragent (mw.UserAgentCounts.getD useragent 0 + 1)
      MaxResponseTime := maxRT
      URLHighestResponse := hi
      URLLowestResponse := lo }

/-- Go `float64 → int` conversion: truncation toward zero. -/
def ratTrunc (q : ℚ) : Int :=
  if 0 ≤ q then ⌊q⌋ else ⌈q⌉

/-- `SecondsToDate(seconds2)` of `stats.go`: `seconds := int(seconds2)`
then successive Go integer divisions (`Int.tdiv`, truncation toward
zero, matches Go `/` on `int`). -/
def SecondsToDate (seconds2 : ℚ) : Int × Int × Int × Int × Int :=
  let seconds := ratTrunc seconds2
  let weeks := seconds.tdiv (7 * 24 * 60 * 60)
  let days := seconds.tdiv (24 * 60 * 60) - 7 * weeks
  let hours := seconds.tdiv (60 * 60) - 7 * 24 * weeks - 24 * days
  let minutes := seconds.tdiv 60 - 7 * 24 * 60 * weeks - 24 * 60 * days - 60 * hours
  let seconds3 := seconds - 7 * 24 * 60 * 60 * weeks - 24 * 60 * 60 * days
      - 60 * 60 * hours - 60 * minutes
  (weeks, days, hours, minutes, seconds3)

/-- `Round(v, decimals)` of `stats.go`: the loop computes
`pow = 10^decimals`; then `float64(int((v*pow)+0.5)) / pow`. -/
def Round (v : ℚ) (decimals : Nat) : ℚ :=
  let pow : ℚ := 10 ^ decimals
  ((ratTrunc (v * pow + 1 / 2) : Int) : ℚ) / pow

/-- The `data` struct of `stats.go` (the snapshot).  Fields that Go
renders as duration strings (`UpTime`, `TotalResponseTime`,
`AverageResponseTime`, `Time`) are kept as the underlying nanosecond
counts; string formatting is not modelled. -/
structure data where
  Pid : Int
  UpTime : Int
  UpTimeSec : ℚ
  Time : Int
  TimeUnix : Int
  StatusCodeCount : SMap Int
  TotalStatusCodeCount : SMap Int
  Count : Int
  TotalCount : Int
  TotalResponseTime : Int
  TotalResponseTimeSec : ℚ
  AverageResponseTime : Int
  AverageResponseTimeSec : ℚ
  URLRequestCounts : SMap Int
  RequestTypeCounts : SMap Int
  UserAgentCounts : SMap Int
  URLRequestLatency : SMap Int
  URLHighestResponse : SMap ℚ
  URLLowestResponse : SMap ℚ
  MaxResponseTime : ResponseURL
deriving DecidableEq

/-- `Data()` of `stats.go`.  `time.Now()` is the parameter `now`.  The
method both returns the snapshot and mutates the store's shared
`MaxResponseTime` record (`ResponseSeconds` and `ResponseSince` are
written back through the pointer), so it returns the pair
(snapshot, updated store).  Go's `int64(d)/int64(n)` is `Int.tdiv`
(truncation toward zero). -/
def Stats.Data (mw : Stats) (now : Int) : data × Stats :=
  let uptime := now - mw.Uptime
  let count := SMap.valuesSum mw.ResponseCounts
  let totalCount := SMap.valuesSum mw.TotalResponseCounts
  let totalResponseTime := mw.TotalResponseTime - 0
  let averageResponseTime :=
    if 0 < totalCount then totalResponseTime.tdiv totalCount else 0
  let respSeconds : ℚ := (mw.MaxResponseTime.ResponseDuration : ℚ) / 1000000000
  let duration := now - mw.MaxResponseTime.ResponseTime
  let sd := SecondsToDate (Round ((duration : ℚ) / 1000000000) 0)
  let maxRT :=
    { mw.MaxResponseTime with
        ResponseSeconds := respSeconds
        ResponseSince := ⟨sd.1, sd.2.1, sd.2.2.1, sd.2.2.2.1, sd.2.2.2.2⟩ }
  ( { Pid := mw.Pid
      UpTime := uptime
      UpTimeSec := (uptime : ℚ) / 1000000000
      Time := now
      TimeUnix := now.tdiv 1000000000
      StatusCodeCount := mw.ResponseCounts
      TotalStatusCodeCount := mw.TotalResponseCounts
      Count := count
      TotalCount := totalCount
      TotalResponseTime := totalResponseTime
      TotalResponseTimeSec := (totalResponseTime : ℚ) / 1000000000
      AverageResponseTime := averageResponseTime
      AverageResponseTimeSec := (averageResponseTime : ℚ) / 1000000000
      URLRequestCounts := mw.URLRequestCounts
      RequestTypeCounts := mw.RequestTypeCounts
      UserAgentCounts := mw.UserAgentCounts
      URLRequestLatency := mw.URLRequestLatency
      URLHighestResponse := mw.URLHighestResponse
      URLLowestResponse := mw.URLLowestResponse
      MaxResponseTime := maxRT },
    { mw with MaxResponseTime := maxRT } )

/-- One recorded request, as fed to `EndWithStatus` by the pipeline. -/
structure Req where
  start : Int
  now : Int
  status : Int
  url : String
  method : String
  useragent : String
deriving DecidableEq

/-- The elapsed duration `EndWithStatus` computes for a request. -/
def Req.elapsed (r : Req) : Int := r.now - r.start

/-- Fold one request into the store. -/
def record (s : Stats) (r : Req) : Stats :=
  EndWithStatus s r.start r.status r.url r.method r.useragent r.now

/-- Record a sequence of requests in order. -/
def run (s : Stats) (l : List Req) : Stats :=
  l.foldl record s

/-! ### Association-list map lemmas -/

namespace SMap

theorem get?_set_self (m : SMap α) (k : String) (v : α) :
    (SMap.set m k v).get? k = some v := by
  induction m with
  | nil => simp [SMap.set, SMap.get?]
  | cons p t ih =>
    obtain ⟨k', v'⟩ := p
    by_cases h : k' == k
    · simp [SMap.set, SMap.get?, h]
    · simp only [SMap.set, h, if_false, Bool.false_eq_true]
      simpa [SMap.get?, h] using ih

theorem get?_set_ne (m : SMap α) (k k' : String) (v : α) (hk : k' ≠ k) :
    (SMap.set m k v).get? k' = m.get? k' := by
  induction m with
  | nil =>
    have h : (k == k') = false := by
      simp only [beq_eq_false_iff_ne]
      exact fun h => hk h.symm
    simp [SMap.set, SMap.get?, List.find?, h]
  | cons p t ih =>
    obtain ⟨k₀, v₀⟩ := p
    by_cases h : k₀ == k
    · have hne : ¬ (k₀ == k') := by
        simp only [beq_iff_eq] at h ⊢
        exact fun hc => hk (hc ▸ h ▸ rfl)
      simp [SMap.set, SMap.get?, h, hne]
    · by_cases h' : k₀ == k'
      · simp [SMap.set, SMap.get?, h, h']
      · simp only [SMap.set, h, if_false, Bool.false_eq_true]
        simpa [SMap.get?, h'] using ih

theorem getD_set_self (m : SMap α) (k : String) (v d : α) :
    (SMap.set m k v).getD k d = v := by
  simp [SMap.getD, get?_set_self]

theorem getD_set_ne (m : SMap α) (k k' : String) (v d : α) (hk : k' ≠ k) :
    (SMap.set m k v).getD k' d = m.getD k' d := by
  simp [SMap.getD, get?_set_ne m k k' v hk]

theorem valuesSum_set (m : SMap Int) (k : String) (v : Int) :
    valuesSum (SMap.set m k v) = valuesSum m + v - m.getD k 0 := by
  induction m with
  | nil => simp [SMap.set, valuesSum, SMap.getD, SMap.get?]
  | cons p t ih =>
    obtain ⟨k', v'⟩ := p
    by_cases h : k' == k
    · simp [SMap.set, valuesSum, SMap.getD, SMap.get?, h]
      ring
    · simp only [SMap.set, h, if_false, Bool.false_eq_true]
      simp only [valuesSum, List.map_cons, List.sum_cons] at ih ⊢
      have hD : SMap.getD ((k', v') :: t) k 0 = SMap.getD t k 0 := by
        simp [SMap.getD, SMap.get?, h]
      rw [hD]
      omega

end SMap

/-! ### C1: duration decomposition -/

/-- Truncation of an integral rational is the integer itself. -/
theorem ratTrunc_natCast (s : Nat) : ratTrunc ((s : ℚ)) = (s : Int) := by
  rw [ratTrunc, if_pos (by positivity)]
  exact_mod_cast Int.floor_natCast s

/-- C1: for every non-negative integer input `s`, `SecondsToDate s`
returns `(weeks, days, hours, minutes, seconds_out)` with
`weeks*604800 + days*86400 + hours*3600 + minutes*60 + seconds_out = s`,
`days ∈ [0,6]`, `hours ∈ [0,23]`, `minutes ∈ [0,59]`,
`seconds_out ∈ [0,59]`. -/
theorem secondsToDate_reconstructs (s : Nat) :
    (SecondsToDate (s : ℚ)).1 * 604800 + (SecondsToDate (s : ℚ)).2.1 * 86400 +
      (SecondsToDate (s : ℚ)).2.2.1 * 3600 + (SecondsToDate (s : ℚ)).2.2.2.1 * 60 +
      (SecondsToDate (s : ℚ)).2.2.2.2 = s ∧
    0 ≤ (SecondsToDate (s : ℚ)).2.1 ∧ (SecondsToDate (s : ℚ)).2.1 ≤ 6 ∧
    0 ≤ (SecondsToDate (s : ℚ)).2.2.1 ∧ (SecondsToDate (s : ℚ)).2.2.1 ≤ 23 ∧
    0 ≤ (SecondsToDate (s : ℚ)).2.2.2.1 ∧ (SecondsToDate (s : ℚ)).2.2.2.1 ≤ 59 ∧
    0 ≤ (SecondsToDate (s : ℚ)).2.2.2.2 ∧ (SecondsToDate (s : ℚ)).2.2.2.2 ≤ 59 := by
  have hdiv : ∀ d : Int, 0 ≤ d → (s : Int).tdiv d = (s : Int) / d := fun d hd =>
    Int.tdiv_eq_ediv (Int.natCast_nonneg s) hd
  simp only [SecondsToDate, ratTrunc_natCast]
  rw [hdiv _ (by norm_num), hdiv _ (by norm_num), hdiv _ (by norm_num),
    hdiv _ (by norm_num)]
  norm_num
  omega

/-! ### C2: cumulative status counts -/

/-- Each recorded request raises the cumulative status-count sum by one. -/
theorem record_totalResponseCounts_sum (s : Stats) (r : Req) :
    SMap.valuesSum (record s r).TotalResponseCounts
      = SMap.valuesSum s.TotalResponseCounts + 1 := by
  have h : (record s r).TotalResponseCounts
      = s.TotalResponseCounts.set (toString r.status)
          (s.TotalResponseCounts.getD (toString r.status) 0 + 1) := rfl
  rw [h, SMap.valuesSum_set]
  omega

/-- Folding a request list raises the cumulative status-count sum by its
length. -/
theorem run_totalResponseCounts_sum (l : List Req) :
    ∀ s : Stats, SMap.valuesSum (run s l).TotalResponseCounts
      = SMap.valuesSum s.TotalResponseCounts + l.length := by
  induction l with
  | nil => intro s; simp [run]
  | cons r t ih =>
    intro s
    have hstep : run s (r :: t) = run (record s r) t := rfl
    rw [hstep, ih (record s r), record_totalResponseCounts_sum]
    simp
    omega

/-- C2: after any sequence of `N` recorded requests (with no interleaved
window reset needed for the cumulative part), the sum of the cumulative
status-count map's values is `N`, and the exported snapshot's
`TotalCount` is `N`. -/
theorem cumulativeStatusCounts_sum_eq_length (pid t0 now : Int) (l : List Req) :
    SMap.valuesSum (run (New pid t0) l).TotalResponseCounts = l.length ∧
    ((run (New pid t0) l).Data now).1.TotalCount = l.length := by
  have h := run_totalResponseCounts_sum l (New pid t0)
  have hz : SMap.valuesSum (New pid t0).TotalResponseCounts = 0 := rfl
  rw [hz, zero_add] at h
  refine ⟨h, ?_⟩
  have hTC : ((run (New pid t0) l).Data now).1.TotalCount
      = SMap.valuesSum (run (New pid t0) l).TotalResponseCounts := rfl
  rw [hTC, h]

/-! ### C3: peak duration is the running maximum -/

/-- One step of the peak update realises a `max`. -/
theorem record_peak_duration (s : Stats) (r : Req) :
    (record s r).MaxResponseTime.ResponseDuration
      = max s.MaxResponseTime.ResponseDuration r.elapsed := by
  have hproj : (record s r).MaxResponseTime
      = if s.MaxResponseTime.ResponseDuration < r.now - r.start then
          { s.MaxResponseTime with
              ResponseDuration := r.now - r.start
              ResponseURL := r.url
              ResponseTime := r.now
              RepsonseMethod := r.method }
        else s.MaxResponseTime := rfl
  rw [hproj, Req.elapsed]
  by_cases h : s.MaxResponseTime.ResponseDuration < r.now - r.start
  · rw [if_pos h]
    exact (max_eq_right (le_of_lt h)).symm
  · rw [if_neg h]
    exact (max_eq_left (by omega)).symm

/-- Folding a request list folds `max` over the elapsed durations. -/
theorem run_peak_duration (l : List Req) :
    ∀ s : Stats, (run s l).MaxResponseTime.ResponseDuration
      = l.foldl (fun a r => max a r.elapsed) s.MaxResponseTime.ResponseDuration := by
  induction l with
  | nil => intro s; rfl
  | cons r t ih =>
    intro s
    have hstep : run s (r :: t) = run (record s r) t := rfl
    rw [hstep, ih (record s r), List.foldl_cons, record_peak_duration]

/-- C3: after any sequence of non-negative recorded requests starting
from the initial zero record, `MaxResponseTime.ResponseDuration` is the
maximum elapsed duration recorded so far (the fold of `max` from the
initial `0`); and recording a request whose elapsed duration is at most
the current peak leaves the peak's url, method and duration unchanged. -/
theorem peak_duration_is_max (pid t0 : Int) (l : List Req)
    (_hpos : ∀ r ∈ l, 0 ≤ r.elapsed) :
    (run (New pid t0) l).MaxResponseTime.ResponseDuration
      = l.foldl (fun a r => max a r.elapsed) 0 ∧
    ∀ (s : Stats) (r : Req), r.elapsed ≤ s.MaxResponseTime.ResponseDuration →
      (record s r).MaxResponseTime.ResponseURL = s.MaxResponseTime.ResponseURL ∧
      (record s r).MaxResponseTime.RepsonseMethod = s.MaxResponseTime.RepsonseMethod ∧
      (record s r).MaxResponseTime.ResponseDuration
        = s.MaxResponseTime.ResponseDuration := by
  constructor
  · have h := run_peak_duration l (New pid t0)
    simpa [New] using h
  · intro s r hle
    have hproj : (record s r).MaxResponseTime
        = if s.MaxResponseTime.ResponseDuration < r.now - r.start then
            { s.MaxResponseTime with
                ResponseDuration := r.now - r.start
                ResponseURL := r.url
                ResponseTime := r.now
                RepsonseMethod := r.method }
          else s.MaxResponseTime := rfl
    have hne : ¬ s.MaxResponseTime.ResponseDuration < r.now - r.start := by
      rw [Req.elapsed] at hle; omega
    rw [hproj, if_neg hne]
    exact ⟨rfl, rfl, rfl⟩

/-- Witness for C3 at a concrete request list. -/
theorem peak_duration_is_max_witness :
    (∀ r ∈ [(⟨0, 5, 200, "/a", "GET", "ua"⟩ : Req), ⟨0, 3, 200, "/b", "GET", "ua"⟩],
        0 ≤ r.elapsed) ∧
    ((run (New 1 0) [(⟨0, 5, 200, "/a", "GET", "ua"⟩ : Req),
          ⟨0, 3, 200, "/b", "GET", "ua"⟩]).MaxResponseTime.ResponseDuration
      = [(⟨0, 5, 200, "/a", "GET", "ua"⟩ : Req),
          ⟨0, 3, 200, "/b", "GET", "ua"⟩].foldl (fun a r => max a r.elapsed) 0 ∧
     ∀ (s : Stats) (r : Req), r.elapsed ≤ s.MaxResponseTime.ResponseDuration →
      (record s r).MaxResponseTime.ResponseURL = s.MaxResponseTime.ResponseURL ∧
      (record s r).MaxResponseTime.RepsonseMethod = s.MaxResponseTime.RepsonseMethod ∧
      (record s r).MaxResponseTime.ResponseDuration
        = s.MaxResponseTime.ResponseDuration) :=
  ⟨by decide, peak_duration_is_max 1 0 _ (by decide)⟩

/-! ### C4: URL minimum-latency update -/

/-- C4: in `EndWithStatus`, for the request's URL with elapsed
`e = now - start`: a missing or exactly-zero `URLLowestResponse` entry
is set to `e`; an existing non-zero entry is lowered to `e` exactly when
`e` is strictly smaller; otherwise it is unchanged; entries of other
URLs are never touched. -/
theorem urlLowestResponse_update (s : Stats) (start now status : Int)
    (url method ua : String) :
    ((s.URLLowestResponse.get? url = none ∨ s.URLLowestResponse.get? url = some 0) →
      (EndWithStatus s start status url method ua now).URLLowestResponse.get? url
        = some ((now - start : Int) : ℚ)) ∧
    (∀ v : ℚ, s.URLLowestResponse.get? url = some v → v ≠ 0 →
      ((now - start : Int) : ℚ) < v →
      (EndWithStatus s start status url method ua now).URLLowestResponse.get? url
        = some ((now - start : Int) : ℚ)) ∧
    (∀ v : ℚ, s.URLLowestResponse.get? url = some v → v ≠ 0 →
      ¬ ((now - start : Int) : ℚ) < v →
      (EndWithStatus s start status url method ua now).URLLowestResponse.get? url
        = some v) ∧
    (∀ u : String, u ≠ url →
      (EndWithStatus s start status url method ua now).URLLowestResponse.get? u
        = s.URLLowestResponse.get? u) := by
  set e : ℚ := ((now - start : Int) : ℚ) with he
  have hproj : (EndWithStatus s start status url method ua now).URLLowestResponse
      = (if e < (if s.URLLowestResponse.getD url 0 = (0 : ℚ)
                  then s.URLLowestResponse.set url e
                  else s.URLLowestResponse).getD url 0
          then (if s.URLLowestResponse.getD url 0 = (0 : ℚ)
                  then s.URLLowestResponse.set url e
                  else s.URLLowestResponse).set url e
          else (if s.URLLowestResponse.getD url 0 = (0 : ℚ)
                  then s.URLLowestResponse.set url e
                  else s.URLLowestResponse)) := rfl
  refine ⟨?_, ?_, ?_, ?_⟩
  · intro h0
    have hD : s.URLLowestResponse.getD url 0 = (0 : ℚ) := by
      rcases h0 with h | h <;> simp [SMap.getD, h]
    rw [hproj, if_pos hD, if_neg (by rw [SMap.getD_set_self]; exact lt_irrefl e)]
    exact SMap.get?_set_self _ _ _
  · intro v hv hvne hlt
    have hD : s.URLLowestResponse.getD url 0 = v := by simp [SMap.getD, hv]
    have hcne : ¬ s.URLLowestResponse.getD url 0 = (0 : ℚ) := by rw [hD]; exact hvne
    have hlt' : e < s.URLLowestResponse.getD url 0 := by rw [hD]; exact hlt
    rw [hproj, if_neg hcne, if_pos hlt']
    exact SMap.get?_set_self _ _ _
  · intro v hv hvne hge
    have hD : s.URLLowestResponse.getD url 0 = v := by simp [SMap.getD, hv]
    have hcne : ¬ s.URLLowestResponse.getD url 0 = (0 : ℚ) := by rw [hD]; exact hvne
    have hge' : ¬ e < s.URLLowestResponse.getD url 0 := by rw [hD]; exact hge
    rw [hproj, if_neg hcne, if_neg hge']
    exact hv
  · intro u hu
    rw [hproj]
    by_cases hD : s.URLLowestResponse.getD url 0 = (0 : ℚ)
    · rw [if_pos hD]
      by_cases hlt : e < (s.URLLowestResponse.set url e).getD url 0
      · rw [if_pos hlt, SMap.get?_set_ne _ _ _ _ hu, SMap.get?_set_ne _ _ _ _ hu]
      · rw [if_neg hlt, SMap.get?_set_ne _ _ _ _ hu]
    · rw [if_neg hD]
      by_cases hlt : e < s.URLLowestResponse.getD url 0
      · rw [if_pos hlt, SMap.get?_set_ne _ _ _ _ hu]
      · rw [if_neg hlt]

/-- Witness for C4: a fresh URL gets its first observation as minimum. -/
theorem urlLowestResponse_update_witness :
    ((New 1 0).URLLowestResponse.get? "/a" = none ∨
      (New 1 0).URLLowestResponse.get? "/a" = some 0) ∧
    (EndWithStatus (New 1 0) 0 200 "/a" "GET" "ua" 5).URLLowestResponse.get? "/a"
      = some ((5 - 0 : Int) : ℚ) :=
  ⟨Or.inl rfl,
    (urlLowestResponse_update (New 1 0) 0 5 200 "/a" "GET" "ua").1 (Or.inl rfl)⟩

/-! ### C5 and C10: average response time -/

/-- C5: in the exported snapshot, `AverageResponseTime` is the
cumulative response time divided (Go integer division) by `TotalCount`
when `TotalCount > 0`, and zero when `TotalCount = 0`. -/
theorem averageResponseTime_of_totals (s : Stats) (now : Int) :
    (0 < (s.Data now).1.TotalCount →
      (s.Data now).1.AverageResponseTime
        = s.TotalResponseTime.tdiv ((s.Data now).1.TotalCount)) ∧
    ((s.Data now).1.TotalCount = 0 → (s.Data now).1.AverageResponseTime = 0) := by
  have hTC : (s.Data now).1.TotalCount = SMap.valuesSum s.TotalResponseCounts := rfl
  have hA : (s.Data now).1.AverageResponseTime
      = if 0 < SMap.valuesSum s.TotalResponseCounts
          then (s.TotalResponseTime - 0).tdiv (SMap.valuesSum s.TotalResponseCounts)
          else 0 := rfl
  constructor
  · intro h
    rw [hTC] at h ⊢
    rw [hA, if_pos h, Int.sub_zero]
  · intro h
    rw [hTC] at h
    rw [hA, if_neg (by omega)]

/-- Witness for C5: one recorded request (positive-count branch) and a
fresh store (zero-count branch). -/
theorem averageResponseTime_of_totals_witness :
    (0 < ((record (New 1 0) ⟨0, 5, 200, "/a", "GET", "ua"⟩).Data 9).1.TotalCount ∧
      ((record (New 1 0) ⟨0, 5, 200, "/a", "GET", "ua"⟩).Data 9).1.AverageResponseTime
        = (record (New 1 0) ⟨0, 5, 200, "/a", "GET", "ua"⟩).TotalResponseTime.tdiv
            (((record (New 1 0) ⟨0, 5, 200, "/a", "GET", "ua"⟩).Data 9).1.TotalCount)) ∧
    (((New 2 0).Data 0).1.TotalCount = 0 ∧
      ((New 2 0).Data 0).1.AverageResponseTime = 0) :=
  ⟨⟨by decide,
    (averageResponseTime_of_totals (record (New 1 0) ⟨0, 5, 200, "/a", "GET", "ua"⟩) 9).1
      (by decide)⟩,
   ⟨rfl, (averageResponseTime_of_totals (New 2 0) 0).2 rfl⟩⟩

/-- C10: with a positive `TotalCount`, the exported average is the
nanosecond quotient truncated toward zero, so for non-negative totals
`avg * totalCount ≤ cumulative < avg * totalCount + totalCount`. -/
theorem averageResponseTime_truncation_bounds (s : Stats) (now : Int)
    (hpos : 0 ≤ (s.Data now).1.TotalResponseTime)
    (hc : 0 < (s.Data now).1.TotalCount) :
    (s.Data now).1.AverageResponseTime
        = (s.Data now).1.TotalResponseTime.tdiv ((s.Data now).1.TotalCount) ∧
    (s.Data now).1.AverageResponseTime * (s.Data now).1.TotalCount
        ≤ (s.Data now).1.TotalResponseTime ∧
    (s.Data now).1.TotalResponseTime
        < (s.Data now).1.AverageResponseTime * (s.Data now).1.TotalCount
          + (s.Data now).1.TotalCount := by
  have hT : (s.Data now).1.TotalResponseTime = s.TotalResponseTime - 0 := rfl
  have hTC : (s.Data now).1.TotalCount = SMap.valuesSum s.TotalResponseCounts := rfl
  have hA : (s.Data now).1.AverageResponseTime
      = if 0 < SMap.valuesSum s.TotalResponseCounts
          then (s.TotalResponseTime - 0).tdiv (SMap.valuesSum s.TotalResponseCounts)
          else 0 := rfl
  have hpos' : 0 ≤ s.TotalResponseTime - 0 := by rw [hT] at hpos; exact hpos
  have hc' : 0 < SMap.valuesSum s.TotalResponseCounts := by rw [hTC] at hc; exact hc
  rw [hT, hTC, hA, if_pos hc']
  refine ⟨rfl, ?_, ?_⟩
  · rw [Int.tdiv_eq_ediv hpos' (le_of_lt hc')]
    have hdm := Int.ediv_add_emod (s.TotalResponseTime - 0) (SMap.valuesSum s.TotalResponseCounts)
    have hr := Int.emod_nonneg (s.TotalResponseTime - 0)
      (by omega : SMap.valuesSum s.TotalResponseCounts ≠ 0)
    nlinarith [hdm, hr]
  · rw [Int.tdiv_eq_ediv hpos' (le_of_lt hc')]
    have hdm := Int.ediv_add_emod (s.TotalResponseTime - 0) (SMap.valuesSum s.TotalResponseCounts)
    have hr := Int.emod_lt_of_pos (s.TotalResponseTime - 0) hc'
    nlinarith [hdm, hr]

/-- Witness for C10: one recorded request of 5 ns. -/
theorem averageResponseTime_truncation_bounds_witness :
    (0 ≤ ((record (New 1 0) ⟨0, 5, 200, "/a", "GET", "ua"⟩).Data 9).1.TotalResponseTime ∧
     0 < ((record (New 1 0) ⟨0, 5, 200, "/a", "GET", "ua"⟩).Data 9).1.TotalCount) ∧
    (((record (New 1 0) ⟨0, 5, 200, "/a", "GET", "ua"⟩).Data 9).1.AverageResponseTime
        = ((record (New 1 0) ⟨0, 5, 200, "/a", "GET", "ua"⟩).Data 9).1.TotalResponseTime.tdiv
            (((record (New 1 0) ⟨0, 5, 200, "/a", "GET", "ua"⟩).Data 9).1.TotalCount) ∧
     ((record (New 1 0) ⟨0, 5, 200, "/a", "GET", "ua"⟩).Data 9).1.AverageResponseTime
          * ((record (New 1 0) ⟨0, 5, 200, "/a", "GET", "ua"⟩).Data 9).1.TotalCount
        ≤ ((record (New 1 0) ⟨0, 5, 200, "/a", "GET", "ua"⟩).Data 9).1.TotalResponseTime ∧
     ((record (New 1 0) ⟨0, 5, 200, "/a", "GET", "ua"⟩).Data 9).1.TotalResponseTime
        < ((record (New 1 0) ⟨0, 5, 200, "/a", "GET", "ua"⟩).Data 9).1.AverageResponseTime
            * ((record (New 1 0) ⟨0, 5, 200, "/a", "GET", "ua"⟩).Data 9).1.TotalCount
          + ((record (New 1 0) ⟨0, 5, 200, "/a", "GET", "ua"⟩).Data 9).1.TotalCount) :=
  ⟨⟨by decide, by decide⟩,
   averageResponseTime_truncation_bounds (record (New 1 0) ⟨0, 5, 200, "/a", "GET", "ua"⟩) 9
     (by decide) (by decide)⟩

/-! ### C6: URL maximum-latency update -/

/-- C6 counterexample: recording an elapsed duration of exactly `0` for
a URL with no `URLHighestResponse` entry creates no entry (the guard
`m[url] < float64(rt)` reads the missing entry as `0` and `0 < 0`
fails), contradicting "if urlMaxLatency[u] has no entry, the entry is
set to e" for `e = 0`. -/
theorem urlHighestResponse_zero_no_entry :
    (New 1 0).URLHighestResponse.get? "/a" = none ∧
    (EndWithStatus (New 1 0) 0 200 "/a" "GET" "ua" 0).URLHighestResponse.get? "/a"
      = none ∧
    (EndWithStatus (New 1 0) 0 200 "/a" "GET" "ua" 0).URLHighestResponse.get? "/a"
      ≠ some ((0 : Int) : ℚ) := by
  refine ⟨rfl, rfl, ?_⟩
  decide

/-- One step of the `URLHighestResponse` update realises a `max` on the
value read with default `0`. -/
theorem record_urlHighest_getD (s : Stats) (r : Req) (u : String) :
    (record s r).URLHighestResponse.getD u 0
      = if r.url = u
          then max (s.URLHighestResponse.getD u 0) ((r.elapsed : Int) : ℚ)
          else s.URLHighestResponse.getD u 0 := by
  have hproj : (record s r).URLHighestResponse
      = if s.URLHighestResponse.getD r.url 0 < ((r.now - r.start : Int) : ℚ)
          then s.URLHighestResponse.set r.url ((r.now - r.start : Int) : ℚ)
          else s.URLHighestResponse := rfl
  rw [hproj, Req.elapsed]
  by_cases hu : r.url = u
  · subst hu
    by_cases hlt : s.URLHighestResponse.getD r.url 0 < ((r.now - r.start : Int) : ℚ)
    · rw [if_pos hlt, SMap.getD_set_self, if_pos rfl,
        max_eq_right (le_of_lt hlt)]
    · rw [if_neg hlt, if_pos rfl, max_eq_left (le_of_not_lt hlt)]
  · rw [if_neg hu]
    by_cases hlt : s.URLHighestResponse.getD r.url 0 < ((r.now - r.start : Int) : ℚ)
    · rw [if_pos hlt, SMap.getD_set_ne _ _ _ _ _ (fun h => hu h.symm)]
    · rw [if_neg hlt]

/-- Folding a request list folds the per-URL `max` (read with default
`0`) over the elapsed durations recorded for that URL. -/
theorem run_urlHighest_getD (l : List Req) :
    ∀ (s : Stats) (u : String),
      (run s l).URLHighestResponse.getD u 0
        = l.foldl (fun a r => if r.url = u then max a ((r.elapsed : Int) : ℚ) else a)
            (s.URLHighestResponse.getD u 0) := by
  induction l with
  | nil => intro s u; rfl
  | cons r t ih =>
    intro s u
    have hstep : run s (r :: t) = run (record s r) t := rfl
    rw [hstep, ih (record s r) u, List.foldl_cons, record_urlHighest_getD]

/-- C6 amended: the `URLHighestResponse` entry is (re)written exactly
when the elapsed duration strictly exceeds the value read with default
`0` (so a first observation of `0` creates no entry), and the value
read with default `0` is always the fold of `max` from `0` over the
latencies recorded for that URL. -/
theorem urlHighestResponse_update_spec (pid t0 : Int) (l : List Req) (u : String) :
    (run (New pid t0) l).URLHighestResponse.getD u 0
      = l.foldl (fun a r => if r.url = u then max a ((r.elapsed : Int) : ℚ) else a) 0 ∧
    ∀ (s : Stats) (r : Req),
      (s.URLHighestResponse.getD r.url 0 < ((r.elapsed : Int) : ℚ) →
        (record s r).URLHighestResponse.get? r.url = some ((r.elapsed : Int) : ℚ)) ∧
      (¬ s.URLHighestResponse.getD r.url 0 < ((r.elapsed : Int) : ℚ) →
        (record s r).URLHighestResponse = s.URLHighestResponse) := by
  constructor
  · have h := run_urlHighest_getD l (New pid t0) u
    simpa [New] using h
  · intro s r
    have hproj : (record s r).URLHighestResponse
        = if s.URLHighestResponse.getD r.url 0 < ((r.now - r.start : Int) : ℚ)
            then s.URLHighestResponse.set r.url ((r.now - r.start : Int) : ℚ)
            else s.URLHighestResponse := rfl
    constructor
    · intro hlt
      rw [Req.elapsed] at hlt
      rw [hproj, if_pos hlt]
      exact SMap.get?_set_self _ _ _
    · intro hge
      rw [Req.elapsed] at hge
      rw [hproj, if_neg hge]

/-- Witness for C6's amended statement at a concrete request list. -/
theorem urlHighestResponse_update_spec_witness :
    ((run (New 1 0) [(⟨0, 5, 200, "/a", "GET", "ua"⟩ : Req),
        ⟨0, 3, 200, "/a", "GET", "ua"⟩]).URLHighestResponse.getD "/a" 0
      = [(⟨0, 5, 200, "/a", "GET", "ua"⟩ : Req),
        ⟨0, 3, 200, "/a", "GET", "ua"⟩].foldl
          (fun a r => if r.url = "/a" then max a ((r.elapsed : Int) : ℚ) else a) 0) ∧
    ((New 1 0).URLHighestResponse.getD "/a" 0
        < (((⟨0, 5, 200, "/a", "GET", "ua"⟩ : Req).elapsed : Int) : ℚ) ∧
      (record (New 1 0) ⟨0, 5, 200, "/a", "GET", "ua"⟩).URLHighestResponse.get? "/a"
        = some (((⟨0, 5, 200, "/a", "GET", "ua"⟩ : Req).elapsed : Int) : ℚ)) :=
  ⟨(urlHighestResponse_update_spec 1 0 [⟨0, 5, 200, "/a", "GET", "ua"⟩,
      ⟨0, 3, 200, "/a", "GET", "ua"⟩] "/a").1,
   ⟨by decide,
    ((urlHighestResponse_update_spec 1 0 [] "/a").2 (New 1 0)
      ⟨0, 5, 200, "/a", "GET", "ua"⟩).1 (by decide)⟩⟩

/-! ### C7: what a peak replacement writes -/

/-- C7 amended: when the elapsed duration strictly exceeds the current
peak duration, `EndWithStatus` replaces the peak record's url, method,
duration and observation time with those of the new request, while the
derived `ResponseSeconds` and `ResponseSince` fields keep their previous
(possibly stale) values — they are recomputed only at export time. -/
theorem peak_replacement_fields (s : Stats) (start status now : Int)
    (url method ua : String)
    (h : s.MaxResponseTime.ResponseDuration < now - start) :
    (EndWithStatus s start status url method ua now).MaxResponseTime =
      { ResponseURL := url
        RepsonseMethod := method
        ResponseDuration := now - start
        ResponseTime := now
        ResponseSeconds := s.MaxResponseTime.ResponseSeconds
        ResponseSince := s.MaxResponseTime.ResponseSince } := by
  have hproj : (EndWithStatus s start status url method ua now).MaxResponseTime
      = if s.MaxResponseTime.ResponseDuration < now - start then
          { s.MaxResponseTime with
              ResponseDuration := now - start
              ResponseURL := url
              ResponseTime := now
              RepsonseMethod := method }
        else s.MaxResponseTime := rfl
  rw [hproj, if_pos h]

/-- Witness for C7's amended statement. -/
theorem peak_replacement_fields_witness :
    ((New 1 0).MaxResponseTime.ResponseDuration < 7 - 0) ∧
    (EndWithStatus (New 1 0) 0 200 "/a" "GET" "ua" 7).MaxResponseTime =
      { ResponseURL := "/a"
        RepsonseMethod := "GET"
        ResponseDuration := 7 - 0
        ResponseTime := 7
        ResponseSeconds := (New 1 0).MaxResponseTime.ResponseSeconds
        ResponseSince := (New 1 0).MaxResponseTime.ResponseSince } :=
  ⟨by decide, peak_replacement_fields (New 1 0) 0 200 7 "/a" "GET" "ua" (by decide)⟩

/-- C7 counterexample: start from a fresh store, record a 5 ns request,
export once (which caches `ResponseSeconds = 5/10^9` inside the peak
record), then record a 12 ns request.  The peak duration is replaced by
12, but the derived `ResponseSeconds` field still holds the stale value
`5/10^9` — neither zero nor the value `12/10^9` of the new request — so
the peak record is not replaced entirely. -/
theorem peak_replacement_stale_seconds :
    ((record ((record (New 1 0) ⟨0, 5, 200, "/a", "GET", "ua"⟩).Data 100).2
        ⟨0, 12, 200, "/b", "GET", "ua"⟩).MaxResponseTime.ResponseDuration = 12) ∧
    ((record ((record (New 1 0) ⟨0, 5, 200, "/a", "GET", "ua"⟩).Data 100).2
        ⟨0, 12, 200, "/b", "GET", "ua"⟩).MaxResponseTime.ResponseSeconds
      = ((5 : Int) : ℚ) / 1000000000) ∧
    ((5 : Int) : ℚ) / 1000000000 ≠ 0 ∧
    ((5 : Int) : ℚ) / 1000000000 ≠ ((12 : Int) : ℚ) / 1000000000 := by
  refine ⟨rfl, rfl, by norm_num, by norm_num⟩

/-! ### C8: window reset frame -/

/-- C8: the window reset empties the rolling `ResponseCounts` map (so
the exported `Count` is `0` before any new request) and leaves every
other field of the store unchanged. -/
theorem resetResponseCounts_frame (s : Stats) (now : Int) :
    (ResetResponseCounts s).ResponseCounts = [] ∧
    ((ResetResponseCounts s).Data now).1.Count = 0 ∧
    (ResetResponseCounts s).Uptime = s.Uptime ∧
    (ResetResponseCounts s).Pid = s.Pid ∧
    (ResetResponseCounts s).TotalResponseCounts = s.TotalResponseCounts ∧
    (ResetResponseCounts s).URLRequestLatency = s.URLRequestLatency ∧
    (ResetResponseCounts s).URLRequestCounts = s.URLRequestCounts ∧
    (ResetResponseCounts s).TotalResponseTime = s.TotalResponseTime ∧
    (ResetResponseCounts s).RequestTypeCounts = s.RequestTypeCounts ∧
    (ResetResponseCounts s).UserAgentCounts = s.UserAgentCounts ∧
    (ResetResponseCounts s).URLHighestResponse = s.URLHighestResponse ∧
    (ResetResponseCounts s).URLLowestResponse = s.URLLowestResponse ∧
    (ResetResponseCounts s).MaxResponseTime = s.MaxResponseTime :=
  ⟨rfl, rfl, rfl, rfl, rfl, rfl, rfl, rfl, rfl, rfl, rfl, rfl, rfl⟩

/-! ### C9: rounding -/

/-- Rounding half-away-from-zero to `n` decimal digits, as the spec
describes it: scale by `10^n`, round the absolute value half-up, and
restore the sign. -/
def roundHalfAwayFromZero (v : ℚ) (n : Nat) : ℚ :=
  if 0 ≤ v then ((⌊v * 10 ^ n + 1 / 2⌋ : Int) : ℚ) / 10 ^ n
  else -(((⌊-v * 10 ^ n + 1 / 2⌋ : Int) : ℚ) / 10 ^ n)

/-- C9 counterexample: `Round (-2.4) 0 = -1` (adding `0.5` and then
truncating toward zero), while rounding half-away-from-zero gives `-2`;
the two functions differ at `v = -12/5`, `n = 0`. -/
theorem round_negative_differs :
    Round (-12 / 5) 0 = -1 ∧
    roundHalfAwayFromZero (-12 / 5) 0 = -2 ∧
    Round (-12 / 5) 0 ≠ roundHalfAwayFromZero (-12 / 5) 0 := by
  have harg : (-12 / 5 : ℚ) * 10 ^ (0 : Nat) + 1 / 2 = -19 / 10 := by norm_num
  have hceil : ⌈(-19 / 10 : ℚ)⌉ = -1 := by
    rw [Int.ceil_eq_iff]
    norm_num
  have hfloor : ⌊-(-12 / 5 : ℚ) * 10 ^ (0 : Nat) + 1 / 2⌋ = 2 := by
    rw [Int.floor_eq_iff]
    norm_num
  have h1 : Round (-12 / 5) 0 = -1 := by
    simp only [Round, harg, ratTrunc]
    rw [if_neg (by norm_num), hceil]
    norm_num
  have h2 : roundHalfAwayFromZero (-12 / 5) 0 = -2 := by
    rw [roundHalfAwayFromZero, if_neg (by norm_num), hfloor]
    norm_num
  exact ⟨h1, h2, by rw [h1, h2]; norm_num⟩

/-- C9 amended: for every non-negative `v` and every `n`, `Round v n`
rounds half-away-from-zero (equivalently half-up) to `n` decimal
digits; for negative `v` the two disagree (see the counterexample). -/
theorem round_nonneg_half_away (v : ℚ) (n : Nat) (hv : 0 ≤ v) :
    Round v n = roundHalfAwayFromZero v n := by
  have harg : (0 : ℚ) ≤ v * 10 ^ n + 1 / 2 := by positivity
  simp only [Round, roundHalfAwayFromZero, ratTrunc]
  rw [if_pos harg, if_pos hv]

/-- Witness for C9's amended statement at `v = 0`, `n = 2`. -/
theorem round_nonneg_half_away_witness :
    (0 : ℚ) ≤ 0 ∧ Round 0 2 = roundHalfAwayFromZero 0 2 :=
  ⟨by decide, round_nonneg_half_away 0 2 (by decide)⟩
